import Mathlib

/-!
Shallow embedding of `spec_creation/autofill_eval_spec.py` — the Route
Geometry Resolution Engine of e-mission-eval-public-data.

Modelling conventions:
* Machine data is embedded directly: OSM node/way/relation ids are `Int`
  (Python ints; the sentinel `-1` at line 125 requires a signed carrier),
  coordinate components are an opaque type `α` (the code only stores,
  moves and swaps coordinates; it never computes with them).
* External collaborators (osmapi node/way/relation fetches, the OSRM
  routing client, the polyline codec) are parameters: total functions
  supplied by the environment, exactly the data the code reads from them.
* Fallible code returns `Except Err _`.  Python exception sites are mapped
  to the specification's error taxonomy, one constructor per distinct
  failure point: `NotImplementedError` (line 38) ↦ `unsupportedModeError`,
  the nested-relation assert (line 80) ↦ `unsupportedTopologyError`,
  `list.index` `ValueError` (lines 132-133) ↦ `nodeNotFoundError`,
  the range assert (line 134) ↦ `invalidRangeError`, the fall-through
  `UnboundLocalError` of `route_coords` (line 165) ↦ `ambiguousLegSpecError`,
  dict `KeyError` (line 115) ↦ `keyError`, `list[-1]` `IndexError`
  (lines 107, 130) ↦ `indexError`, and Python `NameError` /
  `UnboundLocalError` at other sites ↦ `nameError <the unresolvable name>`.
  `wayIdMismatchError` is the error the assert at line 105 is *meant* to
  raise; the code never produces it (see `getCoordsForWayLocalNames`).
-/

/-- Error taxonomy for the engine's failure points (see module docstring
for the map from Python exception sites to constructors). -/
inductive Err : Type where
  | unsupportedModeError : Err
  | unsupportedTopologyError : Err
  | wayIdMismatchError : Err
  | nodeNotFoundError : Err
  | invalidRangeError : Err
  | ambiguousLegSpecError : Err
  | keyError : Err
  | indexError : Err
  | nameError : String → Err
  deriving DecidableEq, Repr

/-- A member record of a fetched OSM relation: the `"type"`, `"role"` and
`"ref"` fields read by `get_way_list` (lines 78-82). -/
structure Member : Type where
  type : String
  role : String
  ref : Int
  deriving DecidableEq, Repr

/-- One entry of the list returned by `osm.WayFull(wid)` (line 98): either a
node entry carrying `id`, `lat`, `lon` (lines 101-103), a way entry carrying
`id` and the ordered node-id list `nd` (lines 104-106), or an entry of any
other type, which the two `if` tests of lines 101 and 104 skip. -/
inductive Entry (α : Type) : Type where
  | node : Int → α → α → Entry α
  | way : Int → List Int → Entry α
  | other : Entry α
  deriving DecidableEq, Repr

/-- `coords_swap` (lines 55-56): reversing a two-element coordinate list,
embedded as swapping the pair. -/
def coords_swap {α : Type} (lon_lat : α × α) : α × α :=
  (lon_lat.2, lon_lat.1)

/-- `get_way_list` (lines 76-83): walk the members in declared order; the
assert at line 80 aborts at the first member of type `"relation"`; members of
type `"way"` whose role is not `"platform"` contribute their `ref`. -/
def get_way_list : List Member → Except Err (List Int)
  | [] => .ok []
  | m :: rest =>
    if m.type = "relation" then .error .unsupportedTopologyError
    else
      match get_way_list rest with
      | .error e => .error e
      | .ok wl =>
        if m.type = "way" ∧ m.role ≠ "platform" then
          .ok (m.ref :: wl)
        else
          .ok wl

/-- Lines 107-110 of `get_coords_for_way`: reverse the freshly assigned
`ordered_node_array` when `prev_last_node != -1` and its last element equals
`prev_last_node`.  Python's `ordered_node_array[-1]` raises `IndexError` on an
empty list, reached only when `prev_last_node != -1` (short-circuit `and`). -/
def orientNodes (nd : List Int) (prev_last_node : Int) : Except Err (List Int) :=
  if prev_last_node ≠ -1 then
    match nd.getLast? with
    | none => .error .indexError
    | some lastNode =>
      if lastNode = prev_last_node then .ok nd.reverse else .ok nd
  else
    .ok nd

/-- The inner loop of lines 111-115: `coords_list.append([lat[on], lon[on]])`
for each node id of the (possibly reversed) ordered node array; a missing key
in either dict raises `KeyError`. -/
def lookupCoords {α : Type} (lat lon : Int → Option α) : List Int → Except Err (List (α × α))
  | [] => .ok []
  | onId :: rest =>
    match lat onId, lon onId with
    | some la, some lo =>
      match lookupCoords lat lon rest with
      | .error e => .error e
      | .ok cs => .ok ((la, lo) :: cs)
    | _, _ => .error .keyError

/-- The loop state of `get_coords_for_way` (lines 95-115): the `lat` and
`lon` dicts, the accumulated `coords_list`, and `ordered_node_array`, which is
unbound (`none`) until the first way entry is processed. -/
structure WayState (α : Type) : Type where
  lat : Int → Option α
  lon : Int → Option α
  coords : List (α × α)
  onsOpt : Option (List Int)

/-- One iteration of the `for e in way_details` loop (lines 100-115).
A node entry updates the `lat`/`lon` dicts (lines 101-103).  A way entry
first asserts `e["data"]["id"] == wid` (line 105) — whose failure message
references `wl`, a name unbound in this function, so the mismatch branch
fails with `NameError` (see `getCoordsForWayLocalNames`) — then orients the
node array and appends its coordinates. -/
def processEntry {α : Type} (wid prev_last_node : Int) (st : WayState α) :
    Entry α → Except Err (WayState α)
  | .node i la lo =>
    .ok { st with
          lat := fun k => if k = i then some la else st.lat k,
          lon := fun k => if k = i then some lo else st.lon k }
  | .way i nd =>
    if i = wid then
      match orientNodes nd prev_last_node with
      | .error e => .error e
      | .ok nd' =>
        match lookupCoords st.lat st.lon nd' with
        | .error e => .error e
        | .ok cds =>
          .ok { st with coords := st.coords ++ cds, onsOpt := some nd' }
    else
      .error (.nameError "wl")
  | .other => .ok st

/-- The `for e in way_details` loop of lines 100-115, threading the loop
state through `processEntry` entry by entry. -/
def processEntries {α : Type} (wid prev_last_node : Int) :
    List (Entry α) → WayState α → Except Err (WayState α)
  | [], st => .ok st
  | e :: rest, st =>
    match processEntry wid prev_last_node st e with
    | .error err => .error err
    | .ok st' => processEntries wid prev_last_node rest st'

/-- The loop state at lines 95-97: empty `lat`/`lon` dicts, empty
`coords_list`, `ordered_node_array` unbound. -/
def initWayState (α : Type) : WayState α :=
  ⟨fun _ => none, fun _ => none, [], none⟩

/-- `get_coords_for_way` (lines 93-116), with the fetched `way_details` list
passed in place of the `osm.WayFull(wid)` call.  Returns the pair
`(ordered_node_array, coords_list)`; if no way entry occurred,
`ordered_node_array` is unbound at line 116 and the function fails with
Python's `UnboundLocalError`. -/
def getCoordsForWay {α : Type} (way_details : List (Entry α)) (wid : Int)
    (prev_last_node : Int) : Except Err (List Int × List (α × α)) :=
  match processEntries wid prev_last_node way_details (initWayState α) with
  | .error e => .error e
  | .ok st =>
    match st.onsOpt with
    | some ons => .ok (ons, st.coords)
    | none => .error (.nameError "ordered_node_array")

/-- Python's `list.index` (lines 132-133): index of the first occurrence, or
`ValueError` — here `nodeNotFoundError` — when the element is absent. -/
def pyIndex (l : List Int) (x : Int) : Except Err Nat :=
  match l with
  | [] => .error .nodeNotFoundError
  | y :: rest =>
    if y = x then .ok 0
    else
      match pyIndex rest x with
      | .error e => .error e
      | .ok i => .ok (i + 1)

/-- The `for wid in wl` loop of `get_coords_for_relation` (lines 123-131):
for each way id, fetch and process the way with the current `prev_last_node`
(initially `-1`), extend `on_list` and `coords_list`, and set
`prev_last_node = w_on_list[-1]` (`IndexError` on an empty list). -/
def assembleWays {α : Type} (wayFull : Int → List (Entry α)) :
    List Int → Int → Except Err (List Int × List (α × α))
  | [], _ => .ok ([], [])
  | wid :: rest, prev_last_node =>
    match getCoordsForWay (wayFull wid) wid prev_last_node with
    | .error e => .error e
    | .ok (w_ons, w_cds) =>
      match w_ons.getLast? with
      | none => .error .indexError
      | some lastNode =>
        match assembleWays wayFull rest lastNode with
        | .error e => .error e
        | .ok (ons, cds) => .ok (w_ons ++ ons, w_cds ++ cds)

/-- `get_coords_for_relation` (lines 118-135), with the fetched member list
passed in place of `osm.RelationGet(rid)` and the way fetcher as a function:
build the way list, assemble the master path, locate the first occurrences of
`start_node` and `end_node`, check the range assert of line 134, and return
the inclusive slice `coords_list[start_index : end_index + 1]`. -/
def get_coords_for_relation {α : Type} (relationMembers : List Member)
    (wayFull : Int → List (Entry α)) (start_node end_node : Int) :
    Except Err (List (α × α)) :=
  match get_way_list relationMembers with
  | .error e => .error e
  | .ok wl =>
    match assembleWays wayFull wl (-1) with
    | .error e => .error e
    | .ok (on_list, coords_list) =>
      match pyIndex on_list start_node with
      | .error e => .error e
      | .ok start_index =>
        match pyIndex on_list end_node with
        | .error e => .error e
        | .ok end_index =>
          if start_index ≤ end_index then
            .ok ((coords_list.drop start_index).take (end_index + 1 - start_index))
          else
            .error .invalidRangeError

-- Concrete two-way relation of the specification's worked example:
-- way 1 = nodes [10,11,12] at (lat,lon) (1,1),(1,2),(1,3);
-- way 2 = nodes [12,13,14] at (1,3),(1,4),(1,5).

/-- Fetched `WayFull` details of example way 1. -/
def exampleWay1 : List (Entry Int) :=
  [.node 10 1 1, .node 11 1 2, .node 12 1 3, .way 1 [10, 11, 12]]

/-- Fetched `WayFull` details of example way 2. -/
def exampleWay2 : List (Entry Int) :=
  [.node 12 1 3, .node 13 1 4, .node 14 1 5, .way 2 [12, 13, 14]]

/-- The example way fetcher. -/
def exampleWayFull : Int → List (Entry Int) := fun wid =>
  if wid = 1 then exampleWay1 else if wid = 2 then exampleWay2 else []

/-- The example relation's member list: ways 1 and 2 in order. -/
def exampleMembers : List Member :=
  [⟨"way", "", 1⟩, ⟨"way", "", 2⟩]

/-- The fixed request parameters of lines 33-34:
`{"overview": "full", "geometries": "polyline", "steps": "false"}`. -/
structure OsrmParams : Type where
  overview : String
  geometries : String
  steps : String
  deriving DecidableEq, Repr

/-- `overview_geometry_params` (lines 33-34). -/
def overview_geometry_params : OsrmParams :=
  ⟨"full", "polyline", "false"⟩

/-- `get_route_coords` (lines 27-38): the four supported modes delegate to
`osrm.get_route_points(mode, waypoint_coords, overview_geometry_params)`;
every other mode raises `NotImplementedError` (↦ `unsupportedModeError`)
before any routing-service call — the service function is not applied on
that branch. -/
def get_route_coords {α : Type}
    (osrmService : String → List (α × α) → OsrmParams → List (α × α))
    (mode : String) (waypoint_coords : List (α × α)) :
    Except Err (List (α × α)) :=
  if mode = "CAR" ∨ mode = "WALKING" ∨ mode = "BICYCLING" ∨ mode = "BUS" then
    .ok (osrmService mode waypoint_coords overview_geometry_params)
  else
    .error .unsupportedModeError

/-- A `start_loc` / `end_loc` record: an OSM node id plus the
`"coordinates"` field, absent (`none`) until filled. -/
structure Loc (α : Type) : Type where
  osm_id : Int
  coordinates : Option (α × α)
  deriving DecidableEq, Repr

/-- A trip-leg record `t`: the `mode` field, the two location records, and
the optional route-source fields; `route_coords` is the output slot filled
at line 165. -/
structure Leg (α : Type) : Type where
  mode : String
  start_loc : Loc α
  end_loc : Loc α
  route_waypoints : Option (List Int)
  waypoint_coords : Option (List (α × α))
  polyline : Option String
  relation : Option Int
  route_coords : Option (List (α × α))
  deriving DecidableEq, Repr

/-- The external collaborators of the engine, supplied as total functions:
`nodeLookup` is `node_to_geojson_coords` (lines 22-25, returning the fetched
`[lon, lat]` pair), `osrmService` is `osrm.get_route_points`,
`decodePolyline` is `pl.PolylineCodec().decode`, and `relationGet` /
`wayFull` are `osm.RelationGet` / `osm.WayFull`. -/
structure Env (α : Type) : Type where
  nodeLookup : Int → α × α
  osrmService : String → List (α × α) → OsrmParams → List (α × α)
  decodePolyline : String → List (α × α)
  relationGet : Int → List Member
  wayFull : Int → List (Entry α)

/-- `_fill_coords_from_id` (lines 40-44) on a present location record:
unconditionally assigns `loc["coordinates"] = node_to_geojson_coords(loc["osm_id"])`
and returns the just-assigned coordinates.  Returns the updated record
alongside, making the in-place mutation explicit. -/
def fillLoc {α : Type} (nodeLookup : Int → α × α) (loc : Loc α) :
    Loc α × (α × α) :=
  ({ loc with coordinates := some (nodeLookup loc.osm_id) },
   nodeLookup loc.osm_id)

/-- `_fill_coords_from_id` (lines 40-44) including the `loc is None` guard:
`None` passes through; otherwise see `fillLoc`. -/
def _fill_coords_from_id {α : Type} (nodeLookup : Int → α × α) :
    Option (Loc α) → Option (Loc α) × Option (α × α)
  | none => (none, none)
  | some loc =>
    let r := fillLoc nodeLookup loc
    (some r.1, some r.2)

/-- `get_route_from_osrm` (lines 58-68): when `route_waypoints` is present,
resolve each node id through `node_to_geojson_coords` and store the result in
`t["waypoint_coords"]`; otherwise use the present `waypoint_coords`; then call
`get_route_coords` on `[start_coords] + waypoint_coords + [end_coords]`.
When neither field is present the name `waypoint_coords` is unbound at
line 65 and the function fails with `NameError`.  Returns the (possibly
mutated) leg together with the route coordinates. -/
def get_route_from_osrm {α : Type} (nodeLookup : Int → α × α)
    (osrmService : String → List (α × α) → OsrmParams → List (α × α))
    (t : Leg α) (start_coords end_coords : α × α) :
    Except Err (Leg α × List (α × α)) :=
  match t.route_waypoints with
  | some waypoints =>
    let waypoint_coords := waypoints.map nodeLookup
    match get_route_coords osrmService t.mode
        (start_coords :: (waypoint_coords ++ [end_coords])) with
    | .error e => .error e
    | .ok route_coords =>
      .ok ({ t with waypoint_coords := some waypoint_coords }, route_coords)
  | none =>
    match t.waypoint_coords with
    | some waypoint_coords =>
      match get_route_coords osrmService t.mode
          (start_coords :: (waypoint_coords ++ [end_coords])) with
      | .error e => .error e
      | .ok route_coords => .ok (t, route_coords)
    | none => .error (.nameError "waypoint_coords")

/-- `get_route_from_polyline` (lines 70-71). -/
def get_route_from_polyline {α : Type} (decodePolyline : String → List (α × α))
    (polyline : String) : List (α × α) :=
  decodePolyline polyline

/-- `get_route_from_relation` (lines 137-139): stitch the relation of the leg
between the start and end locations' `osm_id`s. -/
def get_route_from_relation {α : Type} (relationGet : Int → List Member)
    (wayFull : Int → List (Entry α)) (t : Leg α) (rid : Int) :
    Except Err (List (α × α)) :=
  get_coords_for_relation (relationGet rid) wayFull t.start_loc.osm_id t.end_loc.osm_id

/-- `validate_and_fill_leg` (lines 141-165): fill both locations from their
node ids, dispatch on route-source field presence (`route_waypoints` or
`waypoint_coords` → OSRM; else `polyline` → polyline decoding; else
`relation` → relation stitching), and attach
`t["route_coords"] = [coords_swap(rc) for rc in route_coords]`.  When none of
the three fields is present `route_coords` is unbound at line 165
(`UnboundLocalError`, the specification's `ambiguousLegSpecError`). -/
def validate_and_fill_leg {α : Type} (env : Env α) (t : Leg α) :
    Except Err (Leg α) :=
  let fs := fillLoc env.nodeLookup t.start_loc
  let fe := fillLoc env.nodeLookup t.end_loc
  let t1 : Leg α := { t with start_loc := fs.1, end_loc := fe.1 }
  if t1.route_waypoints.isSome ∨ t1.waypoint_coords.isSome then
    match get_route_from_osrm env.nodeLookup env.osrmService t1 fs.2 fe.2 with
    | .error e => .error e
    | .ok (t2, route_coords) =>
      .ok { t2 with route_coords := some (route_coords.map coords_swap) }
  else
    match t1.polyline with
    | some p =>
      let route_coords := get_route_from_polyline env.decodePolyline p
      .ok { t1 with route_coords := some (route_coords.map coords_swap) }
    | none =>
      match t1.relation with
      | some rid =>
        match get_route_from_relation env.relationGet env.wayFull t1 rid with
        | .error e => .error e
        | .ok route_coords =>
          .ok { t1 with route_coords := some (route_coords.map coords_swap) }
      | none => .error .ambiguousLegSpecError

/-- The free names of the assert-message expression at line 105 of the
source, `"Way id mismatch! %d != %d" % (e["data"]["id"], wl[0])`: it reads
`e` and `wl`. -/
def wayIdMismatchMsgNames : List String := ["e", "wl"]

/-- Every name bound in the scope of `get_coords_for_way` (lines 93-116):
its parameters and the locals it assigns.  `wl` is a local of
`get_coords_for_relation` and of `get_way_list` only, and no module-level
binding of `wl` exists, so evaluating the assert message of line 105 raises
`NameError` instead of producing the way-id-mismatch diagnostic. -/
def getCoordsForWayLocalNames : List String :=
  ["wid", "prev_last_node", "osm", "lat", "lon", "coords_list",
   "way_details", "e", "ordered_node_array", "on"]

instance {ε α : Type} [DecidableEq ε] [DecidableEq α] : DecidableEq (Except ε α) :=
  fun a b =>
    match a, b with
    | .ok x, .ok y =>
      if h : x = y then .isTrue (by rw [h])
      else .isFalse (fun hc => h (Except.ok.inj hc))
    | .error x, .error y =>
      if h : x = y then .isTrue (by rw [h])
      else .isFalse (fun hc => h (Except.error.inj hc))
    | .ok _, .error _ => .isFalse (fun hc => Except.noConfusion hc)
    | .error _, .ok _ => .isFalse (fun hc => Except.noConfusion hc)

/-- A list of node entries, one per `(id, lat, lon)` triple. -/
def nodeEntries {α : Type} (ns : List (Int × α × α)) : List (Entry α) :=
  ns.map (fun p => .node p.1 p.2.1 p.2.2)

/-- The `lat`/`lon` dict updates a run of node entries performs on the loop
state (lines 101-103), later entries overwriting earlier ones. -/
def applyNodes {α : Type} : List (Int × α × α) → WayState α → WayState α
  | [], st => st
  | p :: rest, st =>
    applyNodes rest
      { st with
        lat := fun k => if k = p.1 then some p.2.1 else st.lat k,
        lon := fun k => if k = p.1 then some p.2.2 else st.lon k }

/-- The shape `osm.WayFull` documents for a fetched way (source comment,
lines 85-88): node entries followed by exactly one way entry whose id is the
requested one. -/
def SingleWayShape {α : Type} (wid : Int) (ds : List (Entry α)) : Prop :=
  ∃ ns nd, ds = nodeEntries ns ++ [Entry.way wid nd]

/-- A route-relation environment for the worked example: relation 5 holds
`exampleMembers`; the other collaborators are arbitrary concrete stubs. -/
def exampleEnv : Env Int :=
  { nodeLookup := fun n => (n, n + 100),
    osrmService := fun _ coords _ => coords,
    decodePolyline := fun _ => [(7, 8), (9, 10)],
    relationGet := fun _ => exampleMembers,
    wayFull := exampleWayFull }

/-- The worked example's leg: a BUS leg from node 11 to node 13 sourced from
relation 5. -/
def exampleRelationLeg : Leg Int :=
  { mode := "BUS", start_loc := ⟨11, none⟩, end_loc := ⟨13, none⟩,
    route_waypoints := none, waypoint_coords := none, polyline := none,
    relation := some 5, route_coords := none }

/-- A concrete routing service that echoes its waypoint list. -/
def svcEcho : String → List (Int × Int) → OsrmParams → List (Int × Int) :=
  fun _ coords _ => coords

/-- A concrete routing service that returns an empty route. -/
def svcEmpty : String → List (Int × Int) → OsrmParams → List (Int × Int) :=
  fun _ _ _ => []

/-- A node lookup returning `(1, 2)` for every id. -/
def mismatchLookup : Int → Int × Int := fun _ => (1, 2)

/-- A location that already holds concrete coordinates `(9, 9)`, different
from what `mismatchLookup` returns for its node id. -/
def mismatchLoc : Loc Int := ⟨5, some (9, 9)⟩

/-- A polyline-sourced leg over `exampleEnv`. -/
def examplePolylineLeg : Leg Int :=
  { mode := "WALKING", start_loc := ⟨11, none⟩, end_loc := ⟨13, none⟩,
    route_waypoints := none, waypoint_coords := none, polyline := some "p",
    relation := none, route_coords := none }

/-- A leg with none of the three route-source fields. -/
def emptyRouteLeg : Leg Int :=
  { mode := "WALKING", start_loc := ⟨11, none⟩, end_loc := ⟨13, none⟩,
    route_waypoints := none, waypoint_coords := none, polyline := none,
    relation := none, route_coords := none }

-- Helper lemmas about the embedded operations.

theorem orientNodes_eq {ons nd : List Int} {prev : Int}
    (h : orientNodes nd prev = .ok ons) :
    ons = if prev ≠ -1 ∧ nd.getLast? = some prev then nd.reverse else nd := by
  unfold orientNodes at h
  split at h
  next hp =>
    split at h
    next hl => exact absurd h (by simp)
    next lastNode hl =>
      split at h
      next he =>
        rw [← Except.ok.inj h, if_pos ⟨hp, by rw [hl, he]⟩]
      next he =>
        rw [← Except.ok.inj h, if_neg]
        intro hc
        rw [hl] at hc
        exact he (Option.some.inj hc.2)
  next hp =>
    rw [← Except.ok.inj h, if_neg (fun hc => hp hc.1)]

theorem lookupCoords_length {α : Type} {lat lon : Int → Option α}
    {nds : List Int} {cds : List (α × α)}
    (h : lookupCoords lat lon nds = .ok cds) : cds.length = nds.length := by
  induction nds generalizing cds with
  | nil =>
    unfold lookupCoords at h
    rw [← Except.ok.inj h]
    rfl
  | cons onId rest ih =>
    unfold lookupCoords at h
    cases hla : lat onId with
    | none => rw [hla] at h; exact absurd h (by simp)
    | some la =>
      cases hlo : lon onId with
      | none => rw [hla, hlo] at h; exact absurd h (by simp)
      | some lo =>
        rw [hla, hlo] at h
        cases hrec : lookupCoords lat lon rest with
        | error e => rw [hrec] at h; exact absurd h (by simp)
        | ok cs =>
          rw [hrec] at h
          rw [← Except.ok.inj h]
          simp [ih hrec]

theorem pyIndex_lt_length {l : List Int} {x : Int} {i : Nat}
    (h : pyIndex l x = .ok i) : i < l.length := by
  induction l generalizing i with
  | nil => exact absurd h (by simp [pyIndex])
  | cons y rest ih =>
    unfold pyIndex at h
    by_cases hy : y = x
    · rw [if_pos hy] at h
      have : 0 = i := Except.ok.inj h
      simp [← this]
    · rw [if_neg hy] at h
      cases hrec : pyIndex rest x with
      | error e => rw [hrec] at h; exact absurd h (by simp)
      | ok j =>
        rw [hrec] at h
        have hji : j + 1 = i := Except.ok.inj h
        have hj := ih hrec
        simp only [List.length_cons]
        omega

theorem pyIndex_first {l : List Int} {x : Int} {i : Nat}
    (h : pyIndex l x = .ok i) :
    l[i]? = some x ∧ ∀ j, j < i → l[j]? ≠ some x := by
  induction l generalizing i with
  | nil => exact absurd h (by simp [pyIndex])
  | cons y rest ih =>
    unfold pyIndex at h
    by_cases hy : y = x
    · rw [if_pos hy] at h
      have h0 : 0 = i := Except.ok.inj h
      refine ⟨by simp [← h0, hy], ?_⟩
      intro j hj
      omega
    · rw [if_neg hy] at h
      cases hrec : pyIndex rest x with
      | error e => rw [hrec] at h; exact absurd h (by simp)
      | ok j =>
        rw [hrec] at h
        have hji : j + 1 = i := Except.ok.inj h
        obtain ⟨hget, hfirst⟩ := ih hrec
        refine ⟨by simp [← hji, hget], ?_⟩
        intro k hk
        cases k with
        | zero => simp [hy]
        | succ k' =>
          have : k' < j := by omega
          simpa using hfirst k' this

theorem pyIndex_not_mem {l : List Int} {x : Int} (h : x ∉ l) :
    pyIndex l x = .error .nodeNotFoundError := by
  induction l with
  | nil => rfl
  | cons y rest ih =>
    have hy : y ≠ x := fun hc => h (by simp [hc])
    have hrest : x ∉ rest := fun hc => h (by simp [hc])
    unfold pyIndex
    rw [if_neg hy, ih hrest]

theorem processEntries_append {α : Type} (wid prev : Int)
    (l1 l2 : List (Entry α)) (st : WayState α) :
    processEntries wid prev (l1 ++ l2) st =
      match processEntries wid prev l1 st with
      | .error e => .error e
      | .ok st' => processEntries wid prev l2 st' := by
  induction l1 generalizing st with
  | nil => rfl
  | cons e rest ih =>
    cases hpe : processEntry wid prev st e with
    | error err => simp only [List.cons_append, processEntries, hpe]
    | ok st' =>
      simp only [List.cons_append, processEntries, hpe]
      exact ih st'

theorem initWayState_coords {α : Type} : (initWayState α).coords = [] := rfl

theorem initWayState_onsOpt {α : Type} : (initWayState α).onsOpt = none := rfl

theorem applyNodes_coords {α : Type} (ns : List (Int × α × α)) (st : WayState α) :
    (applyNodes ns st).coords = st.coords := by
  induction ns generalizing st with
  | nil => rfl
  | cons p rest ih => exact ih _

theorem applyNodes_onsOpt {α : Type} (ns : List (Int × α × α)) (st : WayState α) :
    (applyNodes ns st).onsOpt = st.onsOpt := by
  induction ns generalizing st with
  | nil => rfl
  | cons p rest ih => exact ih _

theorem processEntries_nodeEntries {α : Type} (wid prev : Int)
    (ns : List (Int × α × α)) (st : WayState α) :
    processEntries wid prev (nodeEntries ns) st = .ok (applyNodes ns st) := by
  induction ns generalizing st with
  | nil => rfl
  | cons p rest ih =>
    show processEntries wid prev (.node p.1 p.2.1 p.2.2 :: nodeEntries rest) st = _
    unfold processEntries processEntry
    exact ih _

theorem getCoordsForWay_singleWay {α : Type} (ns : List (Int × α × α))
    (nd : List Int) (wid prev : Int) :
    getCoordsForWay (nodeEntries ns ++ [Entry.way wid nd]) wid prev =
      match orientNodes nd prev with
      | .error e => .error e
      | .ok nd' =>
        match lookupCoords (applyNodes ns (initWayState α)).lat
            (applyNodes ns (initWayState α)).lon nd' with
        | .error e => .error e
        | .ok cds => .ok (nd', cds) := by
  cases ho : orientNodes nd prev with
  | error e =>
    simp only [getCoordsForWay, processEntries_append, processEntries_nodeEntries,
      processEntries, processEntry, eq_self_iff_true, if_true, ho]
  | ok nd' =>
    cases hl : lookupCoords (applyNodes ns (initWayState α)).lat
        (applyNodes ns (initWayState α)).lon nd' with
    | error e =>
      simp only [getCoordsForWay, processEntries_append, processEntries_nodeEntries,
        processEntries, processEntry, eq_self_iff_true, if_true, ho, hl]
    | ok cds =>
      simp only [getCoordsForWay, processEntries_append, processEntries_nodeEntries,
        processEntries, processEntry, eq_self_iff_true, if_true, ho, hl,
        applyNodes_coords, initWayState_coords, List.nil_append]

theorem getCoordsForWay_singleWay_parts {α : Type} {ns : List (Int × α × α)}
    {nd : List Int} {wid prev : Int} {ons : List Int} {cds : List (α × α)}
    (h : getCoordsForWay (nodeEntries ns ++ [Entry.way wid nd]) wid prev =
      .ok (ons, cds)) :
    orientNodes nd prev = .ok ons ∧
    lookupCoords (applyNodes ns (initWayState α)).lat
      (applyNodes ns (initWayState α)).lon ons = .ok cds := by
  rw [getCoordsForWay_singleWay] at h
  split at h
  next e ho => exact absurd h (by simp)
  next nd' ho =>
    split at h
    next e hl => exact absurd h (by simp)
    next cds' hl =>
      obtain ⟨h1, h2⟩ := Prod.mk.inj (Except.ok.inj h)
      rw [← h1, ← h2]
      exact ⟨ho, hl⟩

theorem getCoordsForWay_length_eq {α : Type} {ds : List (Entry α)}
    {wid prev : Int} {ons : List Int} {cds : List (α × α)}
    (hs : SingleWayShape wid ds) (h : getCoordsForWay ds wid prev = .ok (ons, cds)) :
    ons.length = cds.length := by
  obtain ⟨ns, nd, rfl⟩ := hs
  obtain ⟨ho, hl⟩ := getCoordsForWay_singleWay_parts h
  exact (lookupCoords_length hl).symm

theorem processEntries_ons_le {α : Type} {wid prev : Int} {es : List (Entry α)}
    {st st' : WayState α} (h : processEntries wid prev es st = .ok st')
    (hinv : ∀ l, st.onsOpt = some l → l.length ≤ st.coords.length) :
    ∀ l, st'.onsOpt = some l → l.length ≤ st'.coords.length := by
  induction es generalizing st with
  | nil =>
    unfold processEntries at h
    rw [← Except.ok.inj h]
    exact hinv
  | cons e rest ih =>
    simp only [processEntries] at h
    split at h
    next err hpe => exact absurd h (by simp)
    next st1 hpe =>
      apply ih h
      cases e with
      | node i la lo =>
        simp only [processEntry] at hpe
        rw [← Except.ok.inj hpe]
        exact hinv
      | way i nd =>
        simp only [processEntry] at hpe
        split at hpe
        next hi =>
          split at hpe
          next e' ho => exact absurd hpe (by simp)
          next nd' ho =>
            split at hpe
            next e' hlc => exact absurd hpe (by simp)
            next cds hlc =>
              rw [← Except.ok.inj hpe]
              intro l hl
              simp only at hl
              rw [← Option.some.inj hl]
              simp only [List.length_append]
              rw [lookupCoords_length hlc]
              omega
        next hi => exact absurd hpe (by simp)
      | other =>
        simp only [processEntry] at hpe
        rw [← Except.ok.inj hpe]
        exact hinv

theorem getCoordsForWay_ons_le {α : Type} {ds : List (Entry α)}
    {wid prev : Int} {ons : List Int} {cds : List (α × α)}
    (h : getCoordsForWay ds wid prev = .ok (ons, cds)) :
    ons.length ≤ cds.length := by
  simp only [getCoordsForWay] at h
  split at h
  next e hp => exact absurd h (by simp)
  next st hp =>
    split at h
    next l ho =>
      obtain ⟨h1, h2⟩ := Prod.mk.inj (Except.ok.inj h)
      have hinv := processEntries_ons_le hp
        (fun l' hl' => absurd hl' (by simp [initWayState]))
      rw [← h1, ← h2]
      exact hinv l ho
    next ho => exact absurd h (by simp)

theorem assembleWays_cons {α : Type} {wayFull : Int → List (Entry α)} {w : Int}
    {rest : List Int} {prev : Int} {r : List Int × List (α × α)}
    (h : assembleWays wayFull (w :: rest) prev = .ok r) :
    ∃ w_ons w_cds lastN tl,
      getCoordsForWay (wayFull w) w prev = .ok (w_ons, w_cds) ∧
      w_ons.getLast? = some lastN ∧
      assembleWays wayFull rest lastN = .ok tl ∧
      r = (w_ons ++ tl.1, w_cds ++ tl.2) := by
  simp only [assembleWays] at h
  split at h
  next e hg => exact absurd h (by simp)
  next w_ons w_cds hg =>
    split at h
    next hl => exact absurd h (by simp)
    next lastN hl =>
      split at h
      next e ha => exact absurd h (by simp)
      next ons cds ha =>
        exact ⟨w_ons, w_cds, lastN, (ons, cds), hg, hl, ha, (Except.ok.inj h).symm⟩

theorem assembleWays_ons_le {α : Type} {wayFull : Int → List (Entry α)}
    {wl : List Int} {prev : Int} {ons : List Int} {cds : List (α × α)}
    (h : assembleWays wayFull wl prev = .ok (ons, cds)) :
    ons.length ≤ cds.length := by
  induction wl generalizing prev ons cds with
  | nil =>
    simp only [assembleWays] at h
    obtain ⟨h1, h2⟩ := Prod.mk.inj (Except.ok.inj h)
    rw [← h1, ← h2]
    exact Nat.le_refl _
  | cons w rest ih =>
    obtain ⟨w_ons, w_cds, lastN, tl, hg, hl, ha, hr⟩ := assembleWays_cons h
    obtain ⟨hr1, hr2⟩ := Prod.mk.inj hr
    rw [hr1, hr2]
    simp only [List.length_append]
    have h1 := getCoordsForWay_ons_le hg
    have h2 : tl.1.length ≤ tl.2.length := ih ha
    omega

theorem pyIndex_mem {l : List Int} {x : Int} (h : x ∈ l) :
    ∃ i, pyIndex l x = .ok i := by
  induction l with
  | nil => exact absurd h (by simp)
  | cons y rest ih =>
    by_cases hy : y = x
    · exact ⟨0, by unfold pyIndex; rw [if_pos hy]⟩
    · have hrest : x ∈ rest := by
        cases h with
        | head => exact absurd rfl hy
        | tail _ hm => exact hm
      obtain ⟨i, hi⟩ := ih hrest
      exact ⟨i + 1, by unfold pyIndex; rw [if_neg hy, hi]⟩

-- Claim theorems.

/-- C1: the specification's worked example claims that stitching the two-way
relation (way 1 = nodes [10,11,12], way 2 = nodes [12,13,14]) from node 11 to
node 13 yields exactly [(1,2),(1,3),(1,4)] before normalization and
[(2,1),(3,1),(4,1)] after.  The code disagrees: node 12 closes way 1 and
opens way 2, so its coordinate (1,3) appears twice in the slice.  This
theorem exhibits the actual four-element outputs and refutes both claimed
three-element outputs. -/
theorem example_scenario_three_coords_refuted :
    get_coords_for_relation exampleMembers exampleWayFull 11 13 =
      .ok [((1 : Int), 2), (1, 3), (1, 3), (1, 4)] ∧
    get_coords_for_relation exampleMembers exampleWayFull 11 13 ≠
      .ok [((1 : Int), 2), (1, 3), (1, 4)] ∧
    (validate_and_fill_leg exampleEnv exampleRelationLeg).map Leg.route_coords ≠
      .ok (some [((2 : Int), 1), (3, 1), (4, 1)]) := by
  refine ⟨by decide, by decide, by decide⟩

/-- C1 (amended): stitching the example relation from node 11 to node 13
returns the four coordinates [(1,2),(1,3),(1,3),(1,4)] — the shared boundary
node 12's coordinate appears twice — and the leg's final normalized
route_coords is [(2,1),(3,1),(3,1),(4,1)]. -/
theorem example_scenario_with_duplicate_boundary :
    get_coords_for_relation exampleMembers exampleWayFull 11 13 =
      .ok [((1 : Int), 2), (1, 3), (1, 3), (1, 4)] ∧
    (validate_and_fill_leg exampleEnv exampleRelationLeg).map Leg.route_coords =
      .ok (some [((2 : Int), 1), (3, 1), (3, 1), (4, 1)]) := by
  refine ⟨by decide, by decide⟩

/-- C10: when the fetched way entry's id (here 2) differs from the requested
way id (here 1), the failure path is itself broken: the assert message at
line 105 references `wl`, which is not among the names bound in
`get_coords_for_way`, so the call fails with `NameError` over `wl` instead of
a way-id-mismatch error reporting both ids. -/
theorem way_id_mismatch_fails_with_unbound_name :
    getCoordsForWay [Entry.node 10 (1 : Int) 1, Entry.way 2 [10]] 1 (-1) =
      .error (.nameError "wl") ∧
    Err.nameError "wl" ≠ Err.wayIdMismatchError ∧
    "wl" ∈ wayIdMismatchMsgNames ∧
    "wl" ∉ getCoordsForWayLocalNames := by
  refine ⟨by decide, by decide, by decide, by decide⟩

/-- C8: for a mode outside {CAR, WALKING, BICYCLING, BUS},
`get_route_coords` fails with `unsupportedModeError` and its result does not
depend on the routing-service function — no network call is made; for a mode
inside the set it delegates to the service with the full-detail geometry
parameters (overview "full", geometries "polyline", steps "false"). -/
theorem mode_gating_no_network_call {α : Type}
    (svc svc' : String → List (α × α) → OsrmParams → List (α × α))
    (mode : String) (wc : List (α × α)) :
    (¬(mode = "CAR" ∨ mode = "WALKING" ∨ mode = "BICYCLING" ∨ mode = "BUS") →
      get_route_coords svc mode wc = .error .unsupportedModeError ∧
      get_route_coords svc mode wc = get_route_coords svc' mode wc) ∧
    ((mode = "CAR" ∨ mode = "WALKING" ∨ mode = "BICYCLING" ∨ mode = "BUS") →
      get_route_coords svc mode wc = .ok (svc mode wc ⟨"full", "polyline", "false"⟩)) := by
  constructor
  · intro hns
    unfold get_route_coords
    rw [if_neg hns, if_neg hns]
    exact ⟨rfl, rfl⟩
  · intro hs
    unfold get_route_coords
    rw [if_pos hs]
    rfl

/-- Witness for C8 at mode "TRAIN" (two distinct concrete services yield the
same failure) and at mode "CAR". -/
theorem mode_gating_no_network_call_witness :
    (get_route_coords svcEcho "TRAIN" [((1 : Int), 2)] =
      .error .unsupportedModeError ∧
    get_route_coords svcEcho "TRAIN" [((1 : Int), 2)] =
      get_route_coords svcEmpty "TRAIN" [((1 : Int), 2)]) ∧
    get_route_coords svcEcho "CAR" [((1 : Int), 2)] =
      .ok (svcEcho "CAR" [((1 : Int), 2)] ⟨"full", "polyline", "false"⟩) :=
  ⟨(mode_gating_no_network_call svcEcho svcEmpty "TRAIN" [(1, 2)]).1 (by decide),
   (mode_gating_no_network_call svcEcho svcEmpty "CAR" [(1, 2)]).2 (by decide)⟩

/-- C9: `get_way_list` fails with `unsupportedTopologyError` whenever some
member has type "relation", and otherwise returns exactly the refs of the
members of type "way" whose role is not "platform", in declared member
order. -/
theorem member_filtering_spec (members : List Member) :
    ((∃ m ∈ members, m.type = "relation") →
      get_way_list members = .error .unsupportedTopologyError) ∧
    ((∀ m ∈ members, m.type ≠ "relation") →
      get_way_list members =
        .ok ((members.filter
          (fun m => decide (m.type = "way" ∧ m.role ≠ "platform"))).map Member.ref)) := by
  induction members with
  | nil =>
    constructor
    · rintro ⟨m, hm, _⟩
      exact absurd hm (by simp)
    · intro _
      rfl
  | cons m rest ih =>
    constructor
    · rintro ⟨m', hm', ht⟩
      by_cases hm : m.type = "relation"
      · unfold get_way_list
        rw [if_pos hm]
      · have hrest : ∃ x ∈ rest, x.type = "relation" := by
          cases hm' with
          | head => exact absurd ht hm
          | tail _ hmem => exact ⟨m', hmem, ht⟩
        unfold get_way_list
        rw [if_neg hm, ih.1 hrest]
    · intro hall
      have hm : ¬m.type = "relation" := hall m (by simp)
      have hrest := ih.2 (fun x hx => hall x (by simp [hx]))
      simp only [get_way_list, if_neg hm, hrest]
      by_cases hf : m.type = "way" ∧ m.role ≠ "platform"
      · rw [if_pos hf]
        simp [List.filter_cons, hf]
      · rw [if_neg hf]
        simp [List.filter_cons, hf]

/-- Witness for C9: a platform member and a nested-relation member. -/
theorem member_filtering_spec_witness :
    get_way_list [⟨"way", "", 1⟩, ⟨"way", "platform", 2⟩, ⟨"node", "stop", 3⟩] =
      .ok (([(⟨"way", "", 1⟩ : Member), ⟨"way", "platform", 2⟩, ⟨"node", "stop", 3⟩].filter
        (fun m => decide (m.type = "way" ∧ m.role ≠ "platform"))).map Member.ref) ∧
    get_way_list [⟨"relation", "", 7⟩] = .error .unsupportedTopologyError :=
  ⟨(member_filtering_spec
      [⟨"way", "", 1⟩, ⟨"way", "platform", 2⟩, ⟨"node", "stop", 3⟩]).2 (by decide),
   (member_filtering_spec [⟨"relation", "", 7⟩]).1 ⟨⟨"relation", "", 7⟩, by decide, rfl⟩⟩

/-- C2: in the relation loop, a segment's fetched node order `nd` is
reversed before use exactly when `prev_last_node` is not the initial
sentinel `-1` and `nd`'s last node id equals `prev_last_node`; and the
`prev_last_node` passed to the rest of the loop is the last node id of the
segment's post-reversal sequence. -/
theorem segment_reversal_iff_last_matches_prev {α : Type}
    (wayFull : Int → List (Entry α)) (w : Int) (rest : List Int) (prev : Int)
    (ns : List (Int × α × α)) (nd : List Int) (r : List Int × List (α × α))
    (hshape : wayFull w = nodeEntries ns ++ [Entry.way w nd])
    (h : assembleWays wayFull (w :: rest) prev = .ok r) :
    ∃ ons cds lastN tl,
      getCoordsForWay (wayFull w) w prev = .ok (ons, cds) ∧
      ons = (if prev ≠ -1 ∧ nd.getLast? = some prev then nd.reverse else nd) ∧
      ons.getLast? = some lastN ∧
      assembleWays wayFull rest lastN = .ok tl ∧
      r = (ons ++ tl.1, cds ++ tl.2) := by
  obtain ⟨w_ons, w_cds, lastN, tl, hg, hl, ha, hr⟩ := assembleWays_cons h
  refine ⟨w_ons, w_cds, lastN, tl, hg, ?_, hl, ha, hr⟩
  rw [hshape] at hg
  obtain ⟨ho, _⟩ := getCoordsForWay_singleWay_parts hg
  exact orientNodes_eq ho

/-- Witness for C2: way 2 of the worked example processed with
`prev_last_node = 14`, which matches its fetched last node, so the segment
is reversed and the next `prev_last_node` is 12. -/
theorem segment_reversal_iff_last_matches_prev_witness :
    ∃ ons cds lastN tl,
      getCoordsForWay (exampleWayFull 2) 2 14 = .ok (ons, cds) ∧
      ons = (if (14 : Int) ≠ -1 ∧ ([12, 13, 14] : List Int).getLast? = some 14
             then ([12, 13, 14] : List Int).reverse else [12, 13, 14]) ∧
      ons.getLast? = some lastN ∧
      assembleWays exampleWayFull [] lastN = .ok tl ∧
      (([14, 13, 12] : List Int), ([((1 : Int), 5), (1, 4), (1, 3)] : List (Int × Int))) =
        (ons ++ tl.1, cds ++ tl.2) :=
  segment_reversal_iff_last_matches_prev exampleWayFull 2 [] 14
    [(12, 1, 3), (13, 1, 4), (14, 1, 5)] [12, 13, 14]
    ([14, 13, 12], [(1, 5), (1, 4), (1, 3)]) (by decide) (by decide)

/-- C3: when both node ids occur in the assembled master path, with
first-occurrence indices `si ≤ ei`, the stitcher returns exactly the
inclusive coordinate slice `[si, ei]`, which has `ei - si + 1` entries. -/
theorem stitch_range_inclusive_slice {α : Type} (members : List Member)
    (wayFull : Int → List (Entry α)) (s e : Int) (wl : List Int)
    (ons : List Int) (cds : List (α × α)) (si ei : Nat)
    (hwl : get_way_list members = .ok wl)
    (hasm : assembleWays wayFull wl (-1) = .ok (ons, cds))
    (hsi : pyIndex ons s = .ok si) (hei : pyIndex ons e = .ok ei)
    (hle : si ≤ ei) :
    get_coords_for_relation members wayFull s e =
      .ok ((cds.drop si).take (ei + 1 - si)) ∧
    ((cds.drop si).take (ei + 1 - si)).length = ei - si + 1 := by
  constructor
  · simp only [get_coords_for_relation, hwl, hasm, hsi, hei]
    rw [if_pos hle]
  · have h1 : ei < ons.length := pyIndex_lt_length hei
    have h2 : ons.length ≤ cds.length := assembleWays_ons_le hasm
    rw [List.length_take, List.length_drop]
    omega

/-- Witness for C3 on the worked example: indices 1 and 4 of the
six-node master path give the four-coordinate slice. -/
theorem stitch_range_inclusive_slice_witness :
    get_coords_for_relation exampleMembers exampleWayFull 11 13 =
      .ok ((([((1 : Int), 1), (1, 2), (1, 3), (1, 3), (1, 4), (1, 5)] :
        List (Int × Int)).drop 1).take (4 + 1 - 1)) ∧
    ((([((1 : Int), 1), (1, 2), (1, 3), (1, 3), (1, 4), (1, 5)] :
        List (Int × Int)).drop 1).take (4 + 1 - 1)).length = 4 - 1 + 1 :=
  stitch_range_inclusive_slice exampleMembers exampleWayFull 11 13 [1, 2]
    [10, 11, 12, 12, 13, 14] [(1, 1), (1, 2), (1, 3), (1, 3), (1, 4), (1, 5)] 1 4
    (by decide) (by decide) (by decide) (by decide) (by decide)

/-- C6: the stitcher locates the *first* occurrence of `start_node` and
`end_node` in the master path's node-id sequence; it fails with
`nodeNotFoundError` (producing no output, the result being an error and not
an `ok`) when either id is absent, and with `invalidRangeError` when the
start index exceeds the end index. -/
theorem stitch_first_index_and_failures {α : Type} (members : List Member)
    (wayFull : Int → List (Entry α)) (s e : Int) (wl : List Int)
    (ons : List Int) (cds : List (α × α))
    (hwl : get_way_list members = .ok wl)
    (hasm : assembleWays wayFull wl (-1) = .ok (ons, cds)) :
    ((s ∉ ons ∨ e ∉ ons) →
      get_coords_for_relation members wayFull s e = .error .nodeNotFoundError) ∧
    (∀ si ei, pyIndex ons s = .ok si → pyIndex ons e = .ok ei →
      (ons[si]? = some s ∧ ∀ j, j < si → ons[j]? ≠ some s) ∧
      (ons[ei]? = some e ∧ ∀ j, j < ei → ons[j]? ≠ some e) ∧
      (ei < si →
        get_coords_for_relation members wayFull s e = .error .invalidRangeError)) := by
  constructor
  · intro habs
    rcases habs with hs | he
    · simp only [get_coords_for_relation, hwl, hasm, pyIndex_not_mem hs]
    · by_cases hs : s ∈ ons
      · obtain ⟨si, hsi⟩ := pyIndex_mem hs
        simp only [get_coords_for_relation, hwl, hasm, hsi, pyIndex_not_mem he]
      · simp only [get_coords_for_relation, hwl, hasm, pyIndex_not_mem hs]
  · intro si ei hsi hei
    refine ⟨pyIndex_first hsi, pyIndex_first hei, ?_⟩
    intro hlt
    simp only [get_coords_for_relation, hwl, hasm, hsi, hei]
    rw [if_neg (by omega)]

/-- Witness for C6: node 99 is absent from the worked example's master
path, so stitching fails with `nodeNotFoundError`. -/
theorem stitch_first_index_and_failures_witness :
    get_coords_for_relation exampleMembers exampleWayFull 99 13 =
      .error .nodeNotFoundError :=
  (stitch_first_index_and_failures exampleMembers exampleWayFull 99 13 [1, 2]
    [10, 11, 12, 12, 13, 14] [(1, 1), (1, 2), (1, 3), (1, 3), (1, 4), (1, 5)]
    (by decide) (by decide)).1 (Or.inl (by decide))

theorem length_pos_of_getLast? {α : Type} {l : List α} {x : α}
    (h : l.getLast? = some x) : 1 ≤ l.length := by
  cases l with
  | nil => exact absurd h (by simp)
  | cons a t => simp

theorem getLast?_getElem {α : Type} {l : List α} {x : α}
    (h : l.getLast? = some x) : l[l.length - 1]? = some x := by
  rw [← List.getLast?_eq_getElem? l]
  exact h

/-- C4: whenever the way list is `pre ++ [w1, w2] ++ rest` and the second
segment's post-orientation head equals the first segment's post-orientation
last node `b`, the assembled master path repeats `b` at adjacent positions
`n-1` and `n` (where `n` counts the nodes contributed through `w1`), and —
when both segments map `b` to the same coordinate `c` — repeats `c` at the
same adjacent positions: concatenation never deduplicates segment-boundary
nodes, so any trimmed range spanning the boundary holds the coordinate
twice. -/
theorem boundary_node_duplicated_in_master_path {α : Type}
    (wayFull : Int → List (Entry α)) (pre : List Int) (w1 w2 : Int)
    (rest : List Int) (prev0 : Int) (ons : List Int) (cds : List (α × α))
    (hshapes : ∀ w ∈ pre ++ [w1, w2], SingleWayShape w (wayFull w))
    (h : assembleWays wayFull (pre ++ w1 :: w2 :: rest) prev0 = .ok (ons, cds)) :
    ∃ n prev1 ons1 cds1 b ons2 cds2,
      getCoordsForWay (wayFull w1) w1 prev1 = .ok (ons1, cds1) ∧
      ons1.getLast? = some b ∧
      getCoordsForWay (wayFull w2) w2 b = .ok (ons2, cds2) ∧
      1 ≤ n ∧
      (ons2.head? = some b →
        ons[n - 1]? = some b ∧ ons[n]? = some b ∧
        ∀ c, cds1.getLast? = some c → cds2.head? = some c →
          cds[n - 1]? = some c ∧ cds[n]? = some c) := by
  induction pre generalizing prev0 ons cds with
  | nil =>
    obtain ⟨ons1, cds1, b, tl, hg1, hl1, ha1, hr⟩ := assembleWays_cons h
    obtain ⟨hr1, hr2⟩ := Prod.mk.inj hr
    obtain ⟨ons2, cds2, b2, tl2, hg2, hl2, ha2, hr'⟩ := assembleWays_cons ha1
    have hsh1 : SingleWayShape w1 (wayFull w1) := hshapes w1 (by simp)
    have hsh2 : SingleWayShape w2 (wayFull w2) := hshapes w2 (by simp)
    have hlen1 : ons1.length = cds1.length := getCoordsForWay_length_eq hsh1 hg1
    have hlen2 : ons2.length = cds2.length := getCoordsForWay_length_eq hsh2 hg2
    have hpos1 : 1 ≤ ons1.length := length_pos_of_getLast? hl1
    have hpos2 : 1 ≤ ons2.length := length_pos_of_getLast? hl2
    refine ⟨ons1.length, prev0, ons1, cds1, b, ons2, cds2, hg1, hl1, hg2, hpos1, ?_⟩
    intro hhead
    have htl1 : tl.1 = ons2 ++ tl2.1 := by rw [hr']
    have htl2 : tl.2 = cds2 ++ tl2.2 := by rw [hr']
    have hons : ons = ons1 ++ (ons2 ++ tl2.1) := by rw [hr1, htl1]
    have hcds : cds = cds1 ++ (cds2 ++ tl2.2) := by rw [hr2, htl2]
    obtain ⟨a, t2, hob⟩ : ∃ a t, ons2 = a :: t := by
      cases ons2 with
      | nil => exact absurd hhead (by simp)
      | cons a t => exact ⟨a, t, rfl⟩
    have hab : a = b := by
      rw [hob] at hhead
      exact Option.some.inj (by simpa using hhead)
    refine ⟨?_, ?_, ?_⟩
    · rw [hons, List.getElem?_append, if_pos (by omega)]
      exact getLast?_getElem hl1
    · rw [hons, List.getElem?_append_right (Nat.le_refl _), Nat.sub_self, hob, hab]
      simp
    · intro c hc1 hc2
      obtain ⟨c0, ct, hcb⟩ : ∃ c0 ct, cds2 = c0 :: ct := by
        cases cds2 with
        | nil =>
          rw [hob] at hlen2
          exact absurd hlen2 (by simp)
        | cons c0 ct => exact ⟨c0, ct, rfl⟩
      have hc0 : c0 = c := by
        rw [hcb] at hc2
        exact Option.some.inj (by simpa using hc2)
      constructor
      · rw [hcds, List.getElem?_append, if_pos (by omega)]
        have hidx : ons1.length - 1 = cds1.length - 1 := by omega
        rw [hidx]
        exact getLast?_getElem hc1
      · rw [hcds, List.getElem?_append_right (by omega)]
        have hidx : ons1.length - cds1.length = 0 := by omega
        rw [hidx, hcb, hc0]
        simp
  | cons p pre' ih =>
    rw [List.cons_append] at h
    obtain ⟨onsP, cdsP, lP, tl, hgp, hlp, hap, hr⟩ := assembleWays_cons h
    obtain ⟨hr1, hr2⟩ := Prod.mk.inj hr
    have hshp : SingleWayShape p (wayFull p) := hshapes p (by simp)
    have hlenP : onsP.length = cdsP.length := getCoordsForWay_length_eq hshp hgp
    have hshapes' : ∀ w ∈ pre' ++ [w1, w2], SingleWayShape w (wayFull w) :=
      fun w hw => hshapes w (by rw [List.cons_append]; exact List.mem_cons_of_mem p hw)
    obtain ⟨n, prev1, ons1, cds1, b, ons2, cds2, hg1, hl1, hg2, hn, himp⟩ :=
      ih lP tl.1 tl.2 hshapes' hap
    refine ⟨n + onsP.length, prev1, ons1, cds1, b, ons2, cds2, hg1, hl1, hg2,
      by omega, ?_⟩
    intro hhead
    obtain ⟨h1, h2, h3⟩ := himp hhead
    refine ⟨?_, ?_, ?_⟩
    · rw [hr1, List.getElem?_append_right (by omega)]
      have hidx : n + onsP.length - 1 - onsP.length = n - 1 := by omega
      rw [hidx]
      exact h1
    · rw [hr1, List.getElem?_append_right (by omega)]
      have hidx : n + onsP.length - onsP.length = n := by omega
      rw [hidx]
      exact h2
    · intro c hc1 hc2
      obtain ⟨hc3, hc4⟩ := h3 c hc1 hc2
      constructor
      · rw [hr2, List.getElem?_append_right (by omega)]
        have hidx : n + onsP.length - 1 - cdsP.length = n - 1 := by omega
        rw [hidx]
        exact hc3
      · rw [hr2, List.getElem?_append_right (by omega)]
        have hidx : n + onsP.length - cdsP.length = n := by omega
        rw [hidx]
        exact hc4

/-- Witness for C4: ways 1 and 2 of the worked example; the boundary node 12
and its coordinate (1,3) appear at adjacent positions 2 and 3 of the master
path. -/
theorem boundary_node_duplicated_in_master_path_witness :
    ∃ n prev1 ons1 cds1 b ons2 cds2,
      getCoordsForWay (exampleWayFull 1) 1 prev1 = .ok (ons1, cds1) ∧
      ons1.getLast? = some b ∧
      getCoordsForWay (exampleWayFull 2) 2 b = .ok (ons2, cds2) ∧
      1 ≤ n ∧
      (ons2.head? = some b →
        ([10, 11, 12, 12, 13, 14] : List Int)[n - 1]? = some b ∧
        ([10, 11, 12, 12, 13, 14] : List Int)[n]? = some b ∧
        ∀ c, cds1.getLast? = some c → cds2.head? = some c →
          ([((1 : Int), 1), (1, 2), (1, 3), (1, 3), (1, 4), (1, 5)] :
            List (Int × Int))[n - 1]? = some c ∧
          ([((1 : Int), 1), (1, 2), (1, 3), (1, 3), (1, 4), (1, 5)] :
            List (Int × Int))[n]? = some c) :=
  boundary_node_duplicated_in_master_path exampleWayFull [] 1 2 [] (-1)
    [10, 11, 12, 12, 13, 14] [(1, 1), (1, 2), (1, 3), (1, 3), (1, 4), (1, 5)]
    (by
      intro w hw
      simp only [List.nil_append, List.mem_cons, List.mem_singleton] at hw
      rcases hw with rfl | hw'
      · exact ⟨[(10, 1, 1), (11, 1, 2), (12, 1, 3)], [10, 11, 12], by decide⟩
      · rcases hw' with rfl | habs
        · exact ⟨[(12, 1, 3), (13, 1, 4), (14, 1, 5)], [12, 13, 14], by decide⟩
        · exact absurd habs (by simp))
    (by decide)

/-- C5: `validate_and_fill_leg` selects exactly one strategy by field
presence in precedence order — `route_waypoints`/`waypoint_coords` →
waypoint routing (node-id waypoints resolved to coordinates first), else
`polyline` → polyline decoding, else `relation` → relation stitching with
the leg's start/end `osm_id`s — and fails with `ambiguousLegSpecError` when
none of the three route-source fields is present. -/
theorem dispatcher_strategy_selection {α : Type} (env : Env α) (t : Leg α) :
    (t.route_waypoints.isSome ∨ t.waypoint_coords.isSome →
      validate_and_fill_leg env t =
        match get_route_from_osrm env.nodeLookup env.osrmService
            { t with start_loc := (fillLoc env.nodeLookup t.start_loc).1,
                     end_loc := (fillLoc env.nodeLookup t.end_loc).1 }
            (fillLoc env.nodeLookup t.start_loc).2
            (fillLoc env.nodeLookup t.end_loc).2 with
        | .error e => .error e
        | .ok (t2, route_coords) =>
          .ok { t2 with route_coords := some (route_coords.map coords_swap) }) ∧
    (∀ ws, t.route_waypoints = some ws →
      ∀ r, get_route_from_osrm env.nodeLookup env.osrmService
            { t with start_loc := (fillLoc env.nodeLookup t.start_loc).1,
                     end_loc := (fillLoc env.nodeLookup t.end_loc).1 }
            (fillLoc env.nodeLookup t.start_loc).2
            (fillLoc env.nodeLookup t.end_loc).2 = .ok r →
        r.1.waypoint_coords = some (ws.map env.nodeLookup)) ∧
    (t.route_waypoints = none → t.waypoint_coords = none →
      ∀ p, t.polyline = some p →
        validate_and_fill_leg env t =
          .ok { t with
                start_loc := (fillLoc env.nodeLookup t.start_loc).1,
                end_loc := (fillLoc env.nodeLookup t.end_loc).1,
                route_coords :=
                  some ((get_route_from_polyline env.decodePolyline p).map coords_swap) }) ∧
    (t.route_waypoints = none → t.waypoint_coords = none → t.polyline = none →
      ∀ rid, t.relation = some rid →
        validate_and_fill_leg env t =
          match get_coords_for_relation (env.relationGet rid) env.wayFull
              t.start_loc.osm_id t.end_loc.osm_id with
          | .error e => .error e
          | .ok rc =>
            .ok { t with
                  start_loc := (fillLoc env.nodeLookup t.start_loc).1,
                  end_loc := (fillLoc env.nodeLookup t.end_loc).1,
                  route_coords := some (rc.map coords_swap) }) ∧
    (t.route_waypoints = none → t.waypoint_coords = none → t.polyline = none →
      t.relation = none →
      validate_and_fill_leg env t = .error .ambiguousLegSpecError) := by
  obtain ⟨mode, sl, el, rws, wcs, pls, rels, rcs⟩ := t
  refine ⟨?_, ?_, ?_, ?_, ?_⟩
  · intro hsome
    simp only [validate_and_fill_leg]
    rw [if_pos (by simpa using hsome)]
  · intro ws hws r hr
    simp only at hws
    subst hws
    simp only [get_route_from_osrm] at hr
    split at hr
    next e hrc => exact absurd hr (by simp)
    next rc hrc =>
      rw [← Except.ok.inj hr]
  · intro h1 h2 p hp
    simp only at h1 h2 hp
    subst h1
    subst h2
    subst hp
    simp [validate_and_fill_leg, get_route_from_polyline]
  · intro h1 h2 h3 rid hrel
    simp only at h1 h2 h3 hrel
    subst h1
    subst h2
    subst h3
    subst hrel
    simp only [validate_and_fill_leg, get_route_from_relation, fillLoc]
    rw [if_neg (by simp)]
  · intro h1 h2 h3 h4
    simp only at h1 h2 h3 h4
    subst h1
    subst h2
    subst h3
    subst h4
    simp [validate_and_fill_leg]

/-- Witness for C5: a leg with none of the three route-source fields fails
with `ambiguousLegSpecError`. -/
theorem dispatcher_strategy_selection_witness :
    validate_and_fill_leg exampleEnv emptyRouteLeg = .error .ambiguousLegSpecError :=
  (dispatcher_strategy_selection exampleEnv emptyRouteLeg).2.2.2.2 rfl rfl rfl rfl

/-- C7 counterexample: the location-resolution step does *not* leave a
location with concrete coordinates unchanged — `_fill_coords_from_id`
unconditionally overwrites `coordinates` with the lookup of `osm_id`.  Here
the stored coordinates (9,9) differ from the lookup result (1,2), and the
step changes the record. -/
theorem location_fill_changes_concrete_coords :
    (_fill_coords_from_id mismatchLookup (some mismatchLoc)).1 ≠ some mismatchLoc ∧
    (_fill_coords_from_id mismatchLookup (some mismatchLoc)).1 =
      some ⟨5, some (1, 2)⟩ := by
  refine ⟨by decide, by decide⟩

/-- C7 (amended): the location-resolution step overwrites `coordinates`
with the external lookup of `osm_id`; it is idempotent as an operation
(applying it to its own output changes nothing), and it leaves a location
unchanged exactly when the stored coordinates already equal the lookup
result.  Consequently re-running `validate_and_fill_leg` on an
already-resolved leg with identical inputs reproduces the leg exactly — in
particular `route_coords` is unchanged. -/
theorem leg_resolution_idempotent {α : Type} (env : Env α) :
    (∀ (lk : Int → α × α) (loc : Loc α),
      fillLoc lk (fillLoc lk loc).1 = fillLoc lk loc ∧
      ((fillLoc lk loc).1 = loc ↔ loc.coordinates = some (lk loc.osm_id))) ∧
    (∀ t t' : Leg α, validate_and_fill_leg env t = .ok t' →
      validate_and_fill_leg env t' = .ok t') := by
  constructor
  · intro lk loc
    refine ⟨rfl, ?_⟩
    cases loc with
    | mk oid co => simp [fillLoc, eq_comm]
  · intro t t' h
    obtain ⟨mode, sl, el, rws, wcs, pls, rels, rcs⟩ := t
    simp only [validate_and_fill_leg, fillLoc] at h
    cases rws with
    | some ws =>
      rw [if_pos (by simp)] at h
      simp only [get_route_from_osrm, fillLoc] at h
      split at h
      next e hrc => exact absurd h (by simp)
      next t2 rc hrc =>
        split at hrc
        next e hgc => exact absurd hrc (by simp)
        next rc' hgc =>
          obtain ⟨e1, e2⟩ := Prod.mk.inj (Except.ok.inj hrc)
          subst e1
          subst e2
          rw [← Except.ok.inj h]
          simp only [validate_and_fill_leg, fillLoc]
          rw [if_pos (by simp)]
          simp only [get_route_from_osrm, fillLoc, hgc]
    | none =>
      cases wcs with
      | some wc =>
        rw [if_pos (by simp)] at h
        simp only [get_route_from_osrm, fillLoc] at h
        split at h
        next e hrc => exact absurd h (by simp)
        next t2 rc hrc =>
          split at hrc
          next e hgc => exact absurd hrc (by simp)
          next rc' hgc =>
            obtain ⟨e1, e2⟩ := Prod.mk.inj (Except.ok.inj hrc)
            subst e1
            subst e2
            rw [← Except.ok.inj h]
            simp only [validate_and_fill_leg, fillLoc]
            rw [if_pos (by simp)]
            simp only [get_route_from_osrm, fillLoc, hgc]
      | none =>
        rw [if_neg (by simp)] at h
        cases pls with
        | some p =>
          rw [← Except.ok.inj h]
          simp only [validate_and_fill_leg, fillLoc, get_route_from_polyline]
          rw [if_neg (by simp)]
        | none =>
          cases rels with
          | some rid =>
            simp only [get_route_from_relation, fillLoc] at h
            split at h
            next e hrc => exact absurd h (by simp)
            next rc hrc =>
              rw [← Except.ok.inj h]
              simp only [validate_and_fill_leg, fillLoc, get_route_from_relation]
              rw [if_neg (by simp)]
              rw [hrc]
          | none => exact absurd h (by simp)

/-- Witness for C7 (amended): re-running the dispatcher on the resolved
polyline leg reproduces it exactly. -/
theorem leg_resolution_idempotent_witness :
    validate_and_fill_leg exampleEnv
      { mode := "WALKING", start_loc := ⟨11, some (11, 111)⟩,
        end_loc := ⟨13, some (13, 113)⟩, route_waypoints := none,
        waypoint_coords := none, polyline := some "p", relation := none,
        route_coords := some [(8, 7), (10, 9)] } =
      .ok { mode := "WALKING", start_loc := ⟨11, some (11, 111)⟩,
            end_loc := ⟨13, some (13, 113)⟩, route_waypoints := none,
            waypoint_coords := none, polyline := some "p", relation := none,
            route_coords := some [(8, 7), (10, 9)] } :=
  (leg_resolution_idempotent exampleEnv).2 examplePolylineLeg
    { mode := "WALKING", start_loc := ⟨11, some (11, 111)⟩,
      end_loc := ⟨13, some (13, 113)⟩, route_waypoints := none,
      waypoint_coords := none, polyline := some "p", relation := none,
      route_coords := some [(8, 7), (10, 9)] } (by decide)
